import Mathlib

/-!
# Shallow embedding of the go-bc5 codec (bc5.go)

Every definition below is translated from `bc5.go`.  Modelling conventions:

* Go `float64` arithmetic is modelled exactly over `ℚ` (all codec arithmetic
  is rational: divisions by 255, 5 and 7, absolute values and comparisons).
* `math.Sqrt` is used only by the `ComputeNormal` blue mode; since square
  roots of rationals are irrational it is passed as an explicit parameter
  `sq : ℚ → ℚ` of decompression.  Every theorem below is either universally
  quantified over `sq` or evaluates a blue mode that never calls it.
* Go bytes are `ℕ` values `< 256` (all byte-producing operations truncate
  with `% 256` exactly where Go does).
* Go `uint64` index accumulation cannot overflow (16 values of 3 bits each,
  i.e. values `< 2^48`), so it is modelled as plain `ℕ`.
* Go runtime panics (slice / array bounds, explicit `panic` calls) are
  modelled as `Except` errors.
* `int(float32(y)/4)` for `0 ≤ y` is modelled as `y / 4` (exact for
  `y < 2^24`, i.e. every realistic image coordinate).
-/

/-- A pixel, as Go's `color.RGBA` (four 8-bit channels, held as `ℕ`). -/
structure RGBA where
  r : ℕ
  g : ℕ
  b : ℕ
  a : ℕ
deriving DecidableEq, Repr

/-- Go `BlueMode` constants `Zero`, `One`, `ComputeNormal`, `Greyscale`
(in `iota` order, so the zero value is `zero`). -/
inductive BlueMode where
  | zero
  | one
  | computeNormal
  | greyscale
deriving DecidableEq, Repr

/-- Errors of the block codec.  `invalidBlockSize` and `invalidIndexSize`
model the explicit `panic` calls of `decompressBlock` and `getIndices`
(the spec's InvalidLength); `paletteOOB` models a Go array-bounds panic on
a palette lookup; `outOfRange` models a slice/index-bounds panic when
selecting a block; `notSquare` / `notMultipleOf4` are the `SetFromRGBA`
dimension errors (the spec's InvalidDimensions). -/
inductive BCErr where
  | invalidBlockSize
  | invalidIndexSize
  | paletteOOB
  | outOfRange
  | notSquare
  | notMultipleOf4
deriving DecidableEq, Repr

/-- `normalize` of bc5.go: `float64(v) / 255`. -/
def normalizeByte (v : ℕ) : ℚ := v / 255

/-- `denormalize` of bc5.go: `byte(v * 255)`.  Go float→byte conversion
truncates toward zero; for the nonnegative values arising here this is the
floor, clamped to `ℕ`. -/
def denormalize (q : ℚ) : ℕ := (⌊q * 255⌋).toNat

/-- `generatePalette` of bc5.go: the 8-entry interpolation ramp. -/
def generatePalette (c0 c1 : ℚ) : List ℚ :=
  if c0 > c1 then
    [c0, c1,
     (6 * c0 + 1 * c1) / 7,
     (5 * c0 + 2 * c1) / 7,
     (4 * c0 + 3 * c1) / 7,
     (3 * c0 + 4 * c1) / 7,
     (2 * c0 + 5 * c1) / 7,
     (1 * c0 + 6 * c1) / 7]
  else
    [c0, c1,
     (4 * c0 + 1 * c1) / 5,
     (3 * c0 + 2 * c1) / 5,
     (2 * c0 + 3 * c1) / 5,
     (1 * c0 + 4 * c1) / 5,
     0, 1]

/-- A 4×4 pixel block (the `*image.RGBA` block arguments, accessed through
`RGBAAt(x, y)` with `x, y < 4`). -/
def Blk := Fin 4 → Fin 4 → RGBA

/-- The 16 pixels of a block in the scan order of every loop of bc5.go
(`for y { for x { c := block.RGBAAt(x, y) } }`). -/
def scanList (block : Blk) : List RGBA :=
  [block 0 0, block 1 0, block 2 0, block 3 0,
   block 0 1, block 1 1, block 2 1, block 3 1,
   block 0 2, block 1 2, block 2 2, block 3 2,
   block 0 3, block 1 3, block 2 3, block 3 3]

/-- The `nearest` closure of `compressBlock`: index of the palette entry
closest to `normalize v`, ties broken by the strict `<` toward the lowest
index. -/
def nearest (pal : List ℚ) (v : ℕ) : ℕ :=
  (List.range 8).foldl
    (fun ni i =>
      if |pal.getD i 0 - normalizeByte v| < |pal.getD ni 0 - normalizeByte v| then i
      else ni)
    0

/-- The index-accumulation step of `compressBlock`:
`acc = (acc << 3) | ix` folded over the 16 indices in scan order. -/
def packIndices (ixs : List ℕ) : ℕ :=
  ixs.foldl (fun acc ix => acc <<< 3 ||| ix) 0

/-- `binary.BigEndian.PutUint64`: the 8 big-endian bytes of `n` (mod 2^64). -/
def beBytes64 (n : ℕ) : List ℕ :=
  [n / 2 ^ 56 % 256, n / 2 ^ 48 % 256, n / 2 ^ 40 % 256, n / 2 ^ 32 % 256,
   n / 2 ^ 24 % 256, n / 2 ^ 16 % 256, n / 2 ^ 8 % 256, n % 256]

/-- The byte-emission step of `compressBlock`: `PutUint64` then keep bytes
`[2:8]`, i.e. the low 48 bits as 6 big-endian bytes. -/
def emit48 (n : ℕ) : List ℕ := (beBytes64 n).drop 2

/-- `compressBlock` of bc5.go.  The Go single pass computing the four
min/max values is written as four folds over the same scan list, and the
two interleaved index accumulations as two `packIndices` folds; both are
step-for-step the same computations. -/
def compressBlock (block : Blk) : List ℕ :=
  let px := scanList block
  let minR := px.foldl (fun m c => if c.r < m then c.r else m) 255
  let maxR := px.foldl (fun m c => if c.r > m then c.r else m) 0
  let minG := px.foldl (fun m c => if c.g < m then c.g else m) 255
  let maxG := px.foldl (fun m c => if c.g > m then c.g else m) 0
  let palR := generatePalette (normalizeByte minR) (normalizeByte maxR)
  let palG := generatePalette (normalizeByte minG) (normalizeByte maxG)
  let rIndexU := packIndices (px.map (fun c => nearest palR c.r))
  let gIndexU := packIndices (px.map (fun c => nearest palG c.g))
  [denormalize (palR.getD 0 0), denormalize (palR.getD 1 0)] ++ emit48 rIndexU
    ++ [denormalize (palG.getD 0 0), denormalize (palG.getD 1 0)]
    ++ emit48 gIndexU

/-- `binary.BigEndian.Uint64` over an 8-byte slice. -/
def beUint64 (bs : List ℕ) : ℕ :=
  bs.foldl (fun acc c => acc * 256 + c % 256) 0

/-- `getIndices` of bc5.go: panics (here: errors) unless given exactly
6 bytes, zero-extends them to 64 bits big-endian, and extracts
`(data >> (i*3)) & 7` for `i = 0..15`. -/
def getIndices (b : List ℕ) : Except BCErr (List ℕ) :=
  if b.length = 6 then
    let data := beUint64 ([0, 0] ++ b)
    .ok ((List.range 16).map (fun i => data >>> (i * 3) &&& 7))
  else .error .invalidIndexSize

/-- The blue channel of one decompressed pixel (the `switch blueMode` of
`decompressBlock`); `sq` stands for `math.Sqrt`. -/
def blueValue (sq : ℚ → ℚ) (m : BlueMode) (rq gq : ℚ) (pxR : ℕ) : ℕ :=
  match m with
  | .computeNormal =>
      denormalize (sq (1 - (2 * rq - 1) ^ 2 + (2 * gq - 1) ^ 2) / 2 + 1 / 2)
  | .greyscale => pxR
  | .one => denormalize 1
  | .zero => 0

/-- One loop iteration of `decompressBlock`: look pixel `pxIndex`'s indices
up in the two palettes (`r[rIndices[pxIndex]]`, `g[gIndices[pxIndex]]`;
an out-of-range palette index would be a Go bounds panic) and build the
pixel.  Alpha is the literal `1` of the Go source. -/
def decompressPixel (sq : ℚ → ℚ) (m : BlueMode) (r g : List ℚ)
    (rIndices gIndices : List ℕ) (pxIndex : ℕ) : Except BCErr RGBA :=
  match r.get? (rIndices.getD pxIndex 0), g.get? (gIndices.getD pxIndex 0) with
  | some rq, some gq =>
      let pxR := denormalize rq
      .ok ⟨pxR, denormalize gq, blueValue sq m rq gq pxR, 1⟩
  | _, _ => .error .paletteOOB

/-- Collect a list of fallible results, stopping at the first error. -/
def exceptList {ε α : Type} : List (Except ε α) → Except ε (List α)
  | [] => .ok []
  | .error e :: _ => .error e
  | .ok a :: rest => (exceptList rest).map (a :: ·)

/-- `decompressBlock` of bc5.go: panics (here: errors) unless given exactly
16 bytes; builds the red palette from bytes 0,1 and its indices from bytes
2..7, the green palette from bytes 8,9 and its indices from bytes 10..15,
then emits the 16 pixels in scan order (`pxIndex = y*4 + x`). -/
def decompressBlock (sq : ℚ → ℚ) (block : List ℕ) (m : BlueMode) :
    Except BCErr (List RGBA) :=
  if block.length = 16 then
    let r := generatePalette (normalizeByte (block.getD 0 0))
      (normalizeByte (block.getD 1 0))
    match getIndices ((block.drop 2).take 6) with
    | .error e => .error e
    | .ok rIndices =>
      let g := generatePalette (normalizeByte (block.getD 8 0))
        (normalizeByte (block.getD 9 0))
      match getIndices (block.drop 10) with
      | .error e => .error e
      | .ok gIndices =>
          exceptList
            ((List.range 16).map (decompressPixel sq m r g rIndices gIndices))
  else .error .invalidBlockSize

/-- `RGBAAt(x, y)` on a decompressed 4×4 block whose pixels are listed in
scan order (`pxIndex = y*4 + x`). -/
def blockAt (pix : List RGBA) (x y : ℕ) : RGBA :=
  pix.getD (y * 4 + x) ⟨0, 0, 0, 0⟩

/-- The `BC5` struct: compressed block data, the rectangle's size, and the
blue mode (Go zero value: `Zero`). -/
structure BC5Image where
  data : List ℕ
  width : ℕ
  height : ℕ
  blueMode : BlueMode

/-- Pointwise form of `Decompress` of bc5.go: the pixel the decompressed
image holds at `(x, y)`.  `Decompress` slices block
`blockIx = int(float32(y)/4) * width / 4 + int(float32(x)/4)` out of
`len(Data)/16` prepared blocks (an out-of-range index is a Go panic) and
reads `RGBAAt(x%4, y%4)`. -/
def decompressImageAt (sq : ℚ → ℚ) (b : BC5Image) (x y : ℕ) :
    Except BCErr RGBA :=
  let blockIx := y / 4 * b.width / 4 + x / 4
  if blockIx < b.data.length / 16 then
    (decompressBlock sq ((b.data.drop (blockIx * 16)).take 16) b.blueMode).map
      (fun pix => blockAt pix (x % 4) (y % 4))
  else .error .outOfRange

/-- `At` of bc5.go: returns the zero `color.RGBA` when `(x, y)` is out of
bounds, otherwise decompresses the single block at byte offset
`int(float32(y)/4) * height + int(float32(x)/4) * 16` (an out-of-range
slice is a Go panic) and reads `RGBAAt(x%4, y%4)`. -/
def atQuery (sq : ℚ → ℚ) (b : BC5Image) (x y : ℤ) : Except BCErr RGBA :=
  if x < 0 ∨ (b.width : ℤ) ≤ x ∨ y < 0 ∨ (b.height : ℤ) ≤ y then
    .ok ⟨0, 0, 0, 0⟩
  else
    let blockIx := y.toNat / 4 * b.height + x.toNat / 4 * 16
    if blockIx + 16 ≤ b.data.length then
      (decompressBlock sq ((b.data.drop blockIx).take 16) b.blueMode).map
        (fun pix => blockAt pix (x.toNat % 4) (y.toNat % 4))
    else .error .outOfRange

/-- A source `*image.RGBA`: its size and its pixels. -/
structure SrcImage where
  w : ℕ
  h : ℕ
  px : ℕ → ℕ → RGBA

/-- `makeBlocks` of bc5.go: the row-major list of 4×4 sub-blocks. -/
def makeBlocks (img : SrcImage) : List Blk :=
  (List.range (img.h / 4)).flatMap (fun brow =>
    (List.range (img.w / 4)).map (fun bcol =>
      fun x y => img.px (bcol * 4 + x.val) (brow * 4 + y.val)))

/-- `SetFromRGBA` of bc5.go: requires a square image with side a multiple
of 4, then concatenates the compressed blocks. -/
def setFromRGBA (img : SrcImage) : Except BCErr BC5Image :=
  if img.w ≠ img.h then .error .notSquare
  else if img.w % 4 ≠ 0 then .error .notMultipleOf4
  else .ok ⟨(makeBlocks img).flatMap compressBlock, img.w, img.h, .zero⟩

/-- Errors of the wire decoder (`Decode` of bc5.go): fewer than 12 bytes,
a wrong signature, or fewer than 13 bytes (no block data). -/
inductive DecodeErr where
  | notEnoughData
  | invalidSignature
  | noImageData
deriving DecidableEq, Repr

/-- `binary.BigEndian.Uint32` over a 4-byte slice. -/
def beUint32 (bs : List ℕ) : ℕ :=
  bs.foldl (fun acc c => acc * 256 + c % 256) 0

/-- `binary.BigEndian.PutUint32`: the 4 big-endian bytes of `n` (mod 2^32). -/
def beBytes32 (n : ℕ) : List ℕ :=
  [n / 2 ^ 24 % 256, n / 2 ^ 16 % 256, n / 2 ^ 8 % 256, n % 256]

/-- `strToDword("BC5 ")`: the big-endian 32-bit value of the ASCII bytes
`B`, `C`, `5`, space. -/
def bc5Signature : ℕ := beUint32 [66, 67, 53, 32]

/-- `Encode` of bc5.go: 12-byte header (signature, width, height, each
big-endian `uint32`) followed by the raw block data. -/
def bc5Encode (img : BC5Image) : List ℕ :=
  beBytes32 bc5Signature ++ beBytes32 (img.width % 2 ^ 32)
    ++ beBytes32 (img.height % 2 ^ 32) ++ img.data

/-- `Decode` of bc5.go: checks that at least 12 bytes are present, that the
first 4 bytes carry the signature, and that at least 13 bytes are present;
then the remaining bytes are the block data and the decoded rectangle is
`(0,0)-(width,height)`.  The `BlueMode` is left at its zero value. -/
def bc5Decode (bs : List ℕ) : Except DecodeErr BC5Image :=
  if bs.length < 12 then .error .notEnoughData
  else if beUint32 (bs.take 4) ≠ bc5Signature then .error .invalidSignature
  else if bs.length < 13 then .error .noImageData
  else .ok ⟨bs.drop 12, beUint32 ((bs.drop 4).take 4),
    beUint32 ((bs.drop 8).take 4), .zero⟩

/-! ## Concrete inputs used by the claims -/

/-- A block with red 255 at pixel (3,3) and 0 elsewhere; green all 0. -/
def blockC2 : Blk := fun x y =>
  ⟨if x = 3 ∧ y = 3 then 255 else 0, 0, 0, 0⟩

/-- An 8×8 source image: red 0 on the top 4 rows, 255 on the bottom 4. -/
def src5 : SrcImage := ⟨8, 8, fun _ y => ⟨if 4 ≤ y then 255 else 0, 0, 0, 0⟩⟩


/-! ## Helper lemmas -/

/-- Round trip through normalization is the identity on bytes:
`⌊v/255 * 255⌋ = v`. -/
theorem denorm_norm (v : ℕ) : denormalize (normalizeByte v) = v := by
  have h : normalizeByte v * 255 = (v : ℚ) := by
    unfold normalizeByte; field_simp
  rw [denormalize, h, Int.floor_natCast, Int.toNat_natCast]

/-- `compressBlock` reads only the red and green channels of its input. -/
theorem compressBlock_congr (b1 b2 : Blk)
    (hr : ∀ x y : Fin 4, (b1 x y).r = (b2 x y).r)
    (hg : ∀ x y : Fin 4, (b1 x y).g = (b2 x y).g) :
    compressBlock b1 = compressBlock b2 := by
  simp only [compressBlock, scanList]
  simp only [List.foldl, List.map]
  simp only [hr, hg]

/-- Evaluation: compressing a solid block with red 100, green 200. -/
theorem compress_const100 : compressBlock (fun _ _ => ⟨100, 200, 0, 0⟩)
    = [100, 100, 0, 0, 0, 0, 0, 0, 200, 200, 0, 0, 0, 0, 0, 0] := by
  norm_num [compressBlock, scanList, nearest, generatePalette, normalizeByte,
    denormalize, packIndices, emit48, beBytes64, List.range_succ, List.getD,
    List.get?, abs, max_def]
  decide

/-- Evaluation: compressing the all-zero solid block. -/
theorem compress_const0 : compressBlock (fun _ _ => ⟨0, 0, 0, 0⟩)
    = [0, 0, 0, 0, 0, 0, 0, 0, 0, 0, 0, 0, 0, 0, 0, 0] := by
  norm_num [compressBlock, scanList, nearest, generatePalette, normalizeByte,
    denormalize, packIndices, emit48, beBytes64, List.range_succ, List.getD,
    List.get?, abs, max_def]

/-- Evaluation: compressing a solid block with red 255, green 0. -/
theorem compress_const255 : compressBlock (fun _ _ => ⟨255, 0, 0, 0⟩)
    = [255, 255, 0, 0, 0, 0, 0, 0, 0, 0, 0, 0, 0, 0, 0, 0] := by
  norm_num [compressBlock, scanList, nearest, generatePalette, normalizeByte,
    denormalize, packIndices, emit48, beBytes64, List.range_succ, List.getD,
    List.get?, abs, max_def]
  decide

set_option maxHeartbeats 4000000 in
/-- Evaluation: compressing `blockC2` (red 255 only at pixel (3,3)) gives
red references (0, 255) and red index field 1 (bottom 3 bits). -/
theorem compress_blockC2 : compressBlock blockC2
    = [0, 255, 0, 0, 0, 0, 0, 1, 0, 0, 0, 0, 0, 0, 0, 0] := by
  have hscan : scanList blockC2
      = List.replicate 15 ⟨0, 0, 0, 0⟩ ++ [⟨255, 0, 0, 0⟩] := by decide
  norm_num [compressBlock, hscan, List.replicate, nearest, generatePalette,
    normalizeByte, denormalize, packIndices, emit48, beBytes64, List.range_succ,
    List.getD, List.get?, abs, max_def]
  decide

/-- Evaluation: decompressing a block whose reference pairs are (v, v) and
(w, w) and whose index bits are all zero yields 16 pixels ⟨v, w, 0, 1⟩. -/
theorem decompress_solid (sq : ℚ → ℚ) (v w : ℕ) :
    decompressBlock sq [v, v, 0, 0, 0, 0, 0, 0, w, w, 0, 0, 0, 0, 0, 0] .zero
      = .ok (List.replicate 16 ⟨v, w, 0, 1⟩) := by
  norm_num [decompressBlock, getIndices, beUint64, generatePalette,
    decompressPixel, blueValue, exceptList, Except.map, List.range_succ,
    List.getD, List.get?, List.replicate, lt_self_iff_false, denorm_norm]

/-- Evaluation: decompressing the bytes `compressBlock blockC2` produces:
the index 1 stored for pixel (3,3) is applied to pixel (0,0), which gets
red 255; all other pixels get red 0. -/
theorem decompress_c2bytes (sq : ℚ → ℚ) :
    decompressBlock sq [0, 255, 0, 0, 0, 0, 0, 1, 0, 0, 0, 0, 0, 0, 0, 0] .zero
      = .ok (⟨255, 0, 0, 1⟩ :: List.replicate 15 ⟨0, 0, 0, 1⟩) := by
  norm_num [decompressBlock, getIndices, beUint64, generatePalette,
    normalizeByte, denormalize, decompressPixel, blueValue, exceptList,
    Except.map, List.range_succ, List.getD, List.get?, List.replicate]
  decide

/-- `getD` on a replicated 16-element list is the replicated element. -/
theorem getD_replicate (p : RGBA) (i : ℕ) (h : i < 16) :
    (List.replicate 16 p).getD i ⟨0, 0, 0, 0⟩ = p := by
  interval_cases i <;> rfl

/-! ## Claims -/

/-- C1: the claim asserts that unpacking the 6-byte field produced by
compressBlock's packing step returns the original 16 values in order.
It is false on the code: `compressBlock` accumulates `(acc << 3) | v`,
placing the FIRST scan-order value in the HIGH bits of the 48-bit field,
while `getIndices` extracts value `i` from bits `[3i, 3i+3)` starting at
the LOW bits, so unpack∘pack reverses the sequence.  Evaluated at the
values `[0,...,0,1]`: unpacking returns `[1,0,...,0]`. -/
theorem c1_pack_unpack_reverses :
    getIndices (emit48 (packIndices [0, 0, 0, 0, 0, 0, 0, 0, 0, 0, 0, 0, 0, 0, 0, 1]))
      = .ok [1, 0, 0, 0, 0, 0, 0, 0, 0, 0, 0, 0, 0, 0, 0, 0] ∧
    ([1, 0, 0, 0, 0, 0, 0, 0, 0, 0, 0, 0, 0, 0, 0, 0] : List ℕ)
      ≠ [0, 0, 0, 0, 0, 0, 0, 0, 0, 0, 0, 0, 0, 0, 0, 1] :=
  ⟨rfl, by decide⟩

/-- C2: the claim asserts decompress∘compress stays within one palette step
at every pixel and is exact at the min/max pixel positions.  It is false on
the code: because the index packing of `compressBlock` and the unpacking of
`getIndices` read the 48-bit field from opposite ends, the round trip
reverses the 16 pixels.  For `blockC2` (red min 0 at pixel (0,0), red 255
only at (3,3)), the round trip puts 255 at pixel (0,0): the minimum
position is not reproduced (0 became 255, five palette steps away). -/
theorem c2_roundtrip_fails :
    compressBlock blockC2
      = [0, 255, 0, 0, 0, 0, 0, 1, 0, 0, 0, 0, 0, 0, 0, 0] ∧
    decompressBlock id (compressBlock blockC2) .zero
      = .ok (⟨255, 0, 0, 1⟩ :: List.replicate 15 ⟨0, 0, 0, 1⟩) ∧
    blockAt (⟨255, 0, 0, 1⟩ :: List.replicate 15 ⟨0, 0, 0, 1⟩) 0 0
      = ⟨255, 0, 0, 1⟩ ∧
    (blockC2 0 0).r = 0 ∧ (255 : ℕ) ≠ 0 := by
  refine ⟨compress_blockC2, ?_, by decide, by decide, by decide⟩
  rw [compress_blockC2]
  exact decompress_c2bytes id

/-- C3: for c0, c1 ∈ [0,1], `generatePalette` returns 8 entries with
entries 0 and 1 equal to c0 and c1 verbatim; if c0 > c1, entries 2..7 are
the /7 interpolations with weight pairs (6,1)...(1,6); otherwise entries
2..5 are the /5 interpolations with weight pairs (4,1)...(1,4) and entries
6 and 7 are exactly 0 and 1. -/
theorem c3_generatePalette (c0 c1 : ℚ) (h00 : 0 ≤ c0) (h01 : c0 ≤ 1)
    (h10 : 0 ≤ c1) (h11 : c1 ≤ 1) :
    (generatePalette c0 c1).length = 8 ∧
    (generatePalette c0 c1).getD 0 0 = c0 ∧
    (generatePalette c0 c1).getD 1 0 = c1 ∧
    (c0 > c1 →
      (generatePalette c0 c1).getD 2 0 = (6 * c0 + 1 * c1) / 7 ∧
      (generatePalette c0 c1).getD 3 0 = (5 * c0 + 2 * c1) / 7 ∧
      (generatePalette c0 c1).getD 4 0 = (4 * c0 + 3 * c1) / 7 ∧
      (generatePalette c0 c1).getD 5 0 = (3 * c0 + 4 * c1) / 7 ∧
      (generatePalette c0 c1).getD 6 0 = (2 * c0 + 5 * c1) / 7 ∧
      (generatePalette c0 c1).getD 7 0 = (1 * c0 + 6 * c1) / 7) ∧
    (c0 ≤ c1 →
      (generatePalette c0 c1).getD 2 0 = (4 * c0 + 1 * c1) / 5 ∧
      (generatePalette c0 c1).getD 3 0 = (3 * c0 + 2 * c1) / 5 ∧
      (generatePalette c0 c1).getD 4 0 = (2 * c0 + 3 * c1) / 5 ∧
      (generatePalette c0 c1).getD 5 0 = (1 * c0 + 4 * c1) / 5 ∧
      (generatePalette c0 c1).getD 6 0 = 0 ∧
      (generatePalette c0 c1).getD 7 0 = 1) := by
  by_cases h : c0 > c1
  · simp only [generatePalette, if_pos h]
    exact ⟨rfl, rfl, rfl, fun _ => ⟨rfl, rfl, rfl, rfl, rfl, rfl⟩,
      fun hle => absurd h (not_lt.2 hle)⟩
  · simp only [generatePalette, if_neg h]
    exact ⟨rfl, rfl, rfl, fun hgt => absurd hgt h,
      fun _ => ⟨rfl, rfl, rfl, rfl, rfl, rfl⟩⟩

theorem c3_generatePalette_witness :
    (0 : ℚ) ≤ 1 ∧ (1 : ℚ) ≤ 1 ∧ (0 : ℚ) ≤ 0 ∧ (0 : ℚ) ≤ 1 ∧
    ((generatePalette 1 0).length = 8 ∧
     (generatePalette 1 0).getD 0 0 = 1 ∧
     (generatePalette 1 0).getD 1 0 = 0 ∧
     ((1 : ℚ) > 0 →
       (generatePalette 1 0).getD 2 0 = (6 * 1 + 1 * 0) / 7 ∧
       (generatePalette 1 0).getD 3 0 = (5 * 1 + 2 * 0) / 7 ∧
       (generatePalette 1 0).getD 4 0 = (4 * 1 + 3 * 0) / 7 ∧
       (generatePalette 1 0).getD 5 0 = (3 * 1 + 4 * 0) / 7 ∧
       (generatePalette 1 0).getD 6 0 = (2 * 1 + 5 * 0) / 7 ∧
       (generatePalette 1 0).getD 7 0 = (1 * 1 + 6 * 0) / 7) ∧
     ((1 : ℚ) ≤ 0 →
       (generatePalette 1 0).getD 2 0 = (4 * 1 + 1 * 0) / 5 ∧
       (generatePalette 1 0).getD 3 0 = (3 * 1 + 2 * 0) / 5 ∧
       (generatePalette 1 0).getD 4 0 = (2 * 1 + 3 * 0) / 5 ∧
       (generatePalette 1 0).getD 5 0 = (1 * 1 + 4 * 0) / 5 ∧
       (generatePalette 1 0).getD 6 0 = 0 ∧
       (generatePalette 1 0).getD 7 0 = 1)) :=
  ⟨by norm_num, by norm_num, le_refl 0, by norm_num,
   c3_generatePalette 1 0 (by norm_num) (by norm_num) (le_refl 0) (by norm_num)⟩

/-- C8: for every compressed image and every out-of-bounds coordinate
(x < 0, x ≥ width, y < 0, or y ≥ height), `At` returns the zero-value
pixel (all four channels 0) without error or panic. -/
theorem c8_oob_returns_zero (sq : ℚ → ℚ) (b : BC5Image) (x y : ℤ)
    (h : x < 0 ∨ (b.width : ℤ) ≤ x ∨ y < 0 ∨ (b.height : ℤ) ≤ y) :
    atQuery sq b x y = .ok ⟨0, 0, 0, 0⟩ := by
  unfold atQuery
  rw [if_pos h]

theorem c8_oob_returns_zero_witness :
    ((-1 : ℤ) < 0 ∨ (((4 : ℕ) : ℤ) ≤ -1 ∨ (0 : ℤ) < 0 ∨ ((4 : ℕ) : ℤ) ≤ 0)) ∧
    atQuery id ⟨[], 4, 4, .zero⟩ (-1) 0 = .ok ⟨0, 0, 0, 0⟩ :=
  ⟨Or.inl (by decide),
   c8_oob_returns_zero id ⟨[], 4, 4, .zero⟩ (-1) 0 (Or.inl (by decide))⟩

/-- C5 counterexample: for the image `src5` (top half red 0, bottom half
red 255) compressed by `SetFromRGBA`, the point query `At(0, 4)` reads
byte offset `(4/4)*height + 0 = 8` — the middle of block 0's data — and
returns red 0, while the full decompression reads block
`(4/4)*(width/4) + 0 = 2` and returns red 255 at (0, 4). -/
theorem c5_at_differs_from_decompress :
    ∃ b, setFromRGBA src5 = .ok b ∧
      atQuery id b 0 4 = .ok ⟨0, 0, 0, 1⟩ ∧
      decompressImageAt id b 0 4 = .ok ⟨255, 0, 0, 1⟩ ∧
      (RGBA.mk 0 0 0 1) ≠ ⟨255, 0, 0, 1⟩ := by
  have hmb : makeBlocks src5 =
      [fun (x y : Fin 4) => src5.px (0 * 4 + ↑x) (0 * 4 + ↑y),
       fun (x y : Fin 4) => src5.px (1 * 4 + ↑x) (0 * 4 + ↑y),
       fun (x y : Fin 4) => src5.px (0 * 4 + ↑x) (1 * 4 + ↑y),
       fun (x y : Fin 4) => src5.px (1 * 4 + ↑x) (1 * 4 + ↑y)] := rfl
  have htop : ∀ bcol : ℕ,
      compressBlock (fun (x y : Fin 4) => src5.px (bcol * 4 + ↑x) (0 * 4 + ↑y))
        = [0, 0, 0, 0, 0, 0, 0, 0, 0, 0, 0, 0, 0, 0, 0, 0] := by
    intro bcol
    exact (compressBlock_congr _ (fun _ _ => ⟨0, 0, 0, 0⟩)
      (fun x y => by fin_cases y <;> rfl)
      (fun x y => rfl)).trans compress_const0
  have hbot : ∀ bcol : ℕ,
      compressBlock (fun (x y : Fin 4) => src5.px (bcol * 4 + ↑x) (1 * 4 + ↑y))
        = [255, 255, 0, 0, 0, 0, 0, 0, 0, 0, 0, 0, 0, 0, 0, 0] := by
    intro bcol
    exact (compressBlock_congr _ (fun _ _ => ⟨255, 0, 0, 0⟩)
      (fun x y => by fin_cases y <;> rfl)
      (fun x y => rfl)).trans compress_const255
  have hdata : (makeBlocks src5).flatMap compressBlock =
      [0, 0, 0, 0, 0, 0, 0, 0, 0, 0, 0, 0, 0, 0, 0, 0,
       0, 0, 0, 0, 0, 0, 0, 0, 0, 0, 0, 0, 0, 0, 0, 0,
       255, 255, 0, 0, 0, 0, 0, 0, 0, 0, 0, 0, 0, 0, 0, 0,
       255, 255, 0, 0, 0, 0, 0, 0, 0, 0, 0, 0, 0, 0, 0, 0] := by
    rw [hmb]
    simp only [List.flatMap_cons, List.flatMap_nil, htop 0, htop 1, hbot 0,
      hbot 1, List.append_nil]
    rfl
  refine ⟨⟨[0, 0, 0, 0, 0, 0, 0, 0, 0, 0, 0, 0, 0, 0, 0, 0,
       0, 0, 0, 0, 0, 0, 0, 0, 0, 0, 0, 0, 0, 0, 0, 0,
       255, 255, 0, 0, 0, 0, 0, 0, 0, 0, 0, 0, 0, 0, 0, 0,
       255, 255, 0, 0, 0, 0, 0, 0, 0, 0, 0, 0, 0, 0, 0, 0], 8, 8, .zero⟩, ?_, ?_, ?_, by decide⟩
  · show setFromRGBA src5 = _
    simp only [setFromRGBA]
    rw [if_neg (by decide), if_neg (by decide), hdata]
    rfl
  · simp only [atQuery]
    rw [if_neg (by decide), if_pos (by decide)]
    have hs : (([0, 0, 0, 0, 0, 0, 0, 0, 0, 0, 0, 0, 0, 0, 0, 0,
       0, 0, 0, 0, 0, 0, 0, 0, 0, 0, 0, 0, 0, 0, 0, 0,
       255, 255, 0, 0, 0, 0, 0, 0, 0, 0, 0, 0, 0, 0, 0, 0,
       255, 255, 0, 0, 0, 0, 0, 0, 0, 0, 0, 0, 0, 0, 0, 0] : List ℕ).drop
        ((4 : ℤ).toNat / 4 * 8 + (0 : ℤ).toNat / 4 * 16)).take 16
        = [0, 0, 0, 0, 0, 0, 0, 0, 0, 0, 0, 0, 0, 0, 0, 0] := by decide
    rw [hs, decompress_solid id 0 0]
    rfl
  · simp only [decompressImageAt]
    rw [if_pos (by decide)]
    have hs : (([0, 0, 0, 0, 0, 0, 0, 0, 0, 0, 0, 0, 0, 0, 0, 0,
       0, 0, 0, 0, 0, 0, 0, 0, 0, 0, 0, 0, 0, 0, 0, 0,
       255, 255, 0, 0, 0, 0, 0, 0, 0, 0, 0, 0, 0, 0, 0, 0,
       255, 255, 0, 0, 0, 0, 0, 0, 0, 0, 0, 0, 0, 0, 0, 0] : List ℕ).drop ((4 / 4 * 8 / 4 + 0 / 4) * 16)).take 16
        = [255, 255, 0, 0, 0, 0, 0, 0, 0, 0, 0, 0, 0, 0, 0, 0] := by decide
    rw [hs, decompress_solid id 255 0]
    rfl

/-- `beUint32` undoes `beBytes32` below `2^32`. -/
theorem beUint32_beBytes32 (n : ℕ) (h : n < 2 ^ 32) :
    beUint32 (beBytes32 n) = n := by
  simp only [beUint32, beBytes32, List.foldl]
  omega

/-- C5 amended: the point query At agrees with the full decompression at
every in-bounds coordinate with y < 4 (the first block row, where both
block-offset formulas reduce to (x/4)*16 bytes); for y ≥ 4 the two
formulas differ ((y/4)*height + (x/4)*16 bytes for At versus block index
(y/4)*(width/4) + x/4 for Decompress) and the paths can disagree. -/
theorem c5_at_eq_decompress_on_first_row (sq : ℚ → ℚ) (b : BC5Image)
    (x y : ℕ) (hx : x < b.width) (hy4 : y < 4) (hy : y < b.height) :
    atQuery sq b x y = decompressImageAt sq b x y := by
  have hcond : ¬((x : ℤ) < 0 ∨ (b.width : ℤ) ≤ (x : ℤ) ∨ (y : ℤ) < 0 ∨
      (b.height : ℤ) ≤ (y : ℤ)) := by
    push_neg
    refine ⟨by omega, by exact_mod_cast hx, by omega, by exact_mod_cast hy⟩
  simp only [atQuery, decompressImageAt]
  rw [if_neg hcond]
  simp only [Int.toNat_natCast]
  rw [Nat.div_eq_of_lt hy4]
  simp only [Nat.zero_mul, Nat.zero_div, Nat.zero_add, Nat.add_zero, zero_add]
  by_cases hq : x / 4 * 16 + 16 ≤ b.data.length
  · rw [if_pos hq, if_pos (by omega : x / 4 < b.data.length / 16)]
  · rw [if_neg hq, if_neg (by omega : ¬ x / 4 < b.data.length / 16)]

theorem c5_at_eq_decompress_on_first_row_witness :
    ((0 : ℕ) < (BC5Image.mk (List.replicate 16 0) 4 4 .zero).width ∧
     (0 : ℕ) < 4 ∧
     (0 : ℕ) < (BC5Image.mk (List.replicate 16 0) 4 4 .zero).height) ∧
    atQuery id ⟨List.replicate 16 0, 4, 4, .zero⟩ 0 0
      = decompressImageAt id ⟨List.replicate 16 0, 4, 4, .zero⟩ 0 0 :=
  ⟨⟨by decide, by decide, by decide⟩,
   c5_at_eq_decompress_on_first_row id ⟨List.replicate 16 0, 4, 4, .zero⟩ 0 0
     (by decide) (by decide) (by decide)⟩

/-- C9: compression never reads the blue or alpha channels: two blocks
that agree on the red and the green channel of every pixel (and differ
arbitrarily in blue and alpha) compress to identical 16-byte outputs. -/
theorem c9_compress_ignores_blue_alpha (b1 b2 : Blk)
    (hr : ∀ x y : Fin 4, (b1 x y).r = (b2 x y).r)
    (hg : ∀ x y : Fin 4, (b1 x y).g = (b2 x y).g) :
    compressBlock b1 = compressBlock b2 :=
  compressBlock_congr b1 b2 hr hg

theorem c9_compress_ignores_blue_alpha_witness :
    (∀ x y : Fin 4,
      (((fun _ _ => ⟨9, 18, 27, 36⟩) : Blk) x y).r
        = (((fun _ _ => ⟨9, 18, 200, 100⟩) : Blk) x y).r) ∧
    (∀ x y : Fin 4,
      (((fun _ _ => ⟨9, 18, 27, 36⟩) : Blk) x y).g
        = (((fun _ _ => ⟨9, 18, 200, 100⟩) : Blk) x y).g) ∧
    compressBlock (fun _ _ => ⟨9, 18, 27, 36⟩)
      = compressBlock (fun _ _ => ⟨9, 18, 200, 100⟩) :=
  ⟨fun _ _ => rfl, fun _ _ => rfl,
   c9_compress_ignores_blue_alpha _ _ (fun _ _ => rfl) (fun _ _ => rfl)⟩

/-- C7 counterexample: the claim fails as stated in two corners.
Encoding the empty 0×0 compressed image produces the bare 12-byte header,
which Decode rejects with the "no image data" error instead of returning
the (empty) block content; and decoding a 4-byte stream whose first 4
bytes differ from the signature fails with the "not enough data" error,
not the signature error. -/
theorem c7_header_roundtrip_fails :
    bc5Decode (bc5Encode ⟨[], 0, 0, .zero⟩) = .error .noImageData ∧
    bc5Decode [0, 0, 0, 0] = .error .notEnoughData ∧
    DecodeErr.noImageData ≠ DecodeErr.invalidSignature ∧
    DecodeErr.notEnoughData ≠ DecodeErr.invalidSignature :=
  ⟨rfl, rfl, by decide, by decide⟩

/-- C7 amended: for a compressed image with at least one data byte and
uint32-representable dimensions, encode-then-decode returns the image
with the same width, height and block bytes; and decoding any stream of
length ≥ 12 whose leading 4 bytes do not carry the "BC5 " signature fails
with the signature error. -/
theorem c7_wire_roundtrip :
    (∀ img : BC5Image, img.width < 2 ^ 32 → img.height < 2 ^ 32 →
      img.data ≠ [] →
      bc5Decode (bc5Encode img) = .ok ⟨img.data, img.width, img.height, .zero⟩) ∧
    (∀ bs : List ℕ, 12 ≤ bs.length →
      beUint32 (bs.take 4) ≠ bc5Signature →
      bc5Decode bs = .error .invalidSignature) := by
  constructor
  · intro img hw hh hd
    have hlen : 0 < img.data.length := List.length_pos.mpr hd
    have hsig : beUint32 (beBytes32 bc5Signature) = bc5Signature :=
      beUint32_beBytes32 _ (by norm_num [bc5Signature, beUint32])
    have henc : bc5Encode img
        = (beBytes32 bc5Signature ++ beBytes32 (img.width % 2 ^ 32)
            ++ beBytes32 (img.height % 2 ^ 32)) ++ img.data := by
      simp [bc5Encode, List.append_assoc]
    have hlen12 : (beBytes32 bc5Signature ++ beBytes32 (img.width % 2 ^ 32)
        ++ beBytes32 (img.height % 2 ^ 32)).length = 12 := rfl
    have hElen : (bc5Encode img).length = 12 + img.data.length := by
      rw [henc, List.length_append, hlen12]
    have htake : (bc5Encode img).take 4 = beBytes32 bc5Signature := by
      rw [bc5Encode, List.append_assoc, List.append_assoc]
      exact List.take_left' rfl
    have hdrop12 : (bc5Encode img).drop 12 = img.data := by
      rw [henc]
      exact List.drop_left' hlen12
    have hwidth : ((bc5Encode img).drop 4).take 4
        = beBytes32 (img.width % 2 ^ 32) := by
      rw [bc5Encode, List.append_assoc, List.append_assoc,
        List.drop_left' (show (beBytes32 bc5Signature).length = 4 from rfl)]
      exact List.take_left' rfl
    have hheight : ((bc5Encode img).drop 8).take 4
        = beBytes32 (img.height % 2 ^ 32) := by
      rw [bc5Encode, List.append_assoc,
        List.drop_left' (show (beBytes32 bc5Signature
          ++ beBytes32 (img.width % 2 ^ 32)).length = 8 from rfl)]
      exact List.take_left' rfl
    rw [bc5Decode, if_neg (by omega), if_neg (by rw [htake, hsig]; simp),
      if_neg (by omega), hdrop12, hwidth, hheight,
      beUint32_beBytes32 _ (Nat.mod_lt _ (by norm_num)),
      beUint32_beBytes32 _ (Nat.mod_lt _ (by norm_num)),
      Nat.mod_eq_of_lt hw, Nat.mod_eq_of_lt hh]
  · intro bs h12 hsig
    rw [bc5Decode, if_neg (by omega), if_pos hsig]

theorem c7_wire_roundtrip_witness :
    ((BC5Image.mk [5] 4 4 .zero).width < 2 ^ 32 ∧
     (BC5Image.mk [5] 4 4 .zero).height < 2 ^ 32 ∧
     (BC5Image.mk [5] 4 4 .zero).data ≠ [] ∧
     bc5Decode (bc5Encode ⟨[5], 4, 4, .zero⟩) = .ok ⟨[5], 4, 4, .zero⟩) ∧
    (12 ≤ (List.replicate 12 0).length ∧
     beUint32 ((List.replicate 12 0).take 4) ≠ bc5Signature ∧
     bc5Decode (List.replicate 12 0) = .error .invalidSignature) :=
  ⟨⟨by norm_num, by norm_num, by decide,
    c7_wire_roundtrip.1 ⟨[5], 4, 4, .zero⟩ (by norm_num) (by norm_num)
      (by decide)⟩,
   ⟨by decide, by decide,
    c7_wire_roundtrip.2 (List.replicate 12 0) (by decide) (by decide)⟩⟩

/-- Both branches of `generatePalette` build 8 entries. -/
theorem generatePalette_length (c0 c1 : ℚ) :
    (generatePalette c0 c1).length = 8 := by
  unfold generatePalette
  split <;> rfl

/-- On a 6-byte input, `getIndices` succeeds with the 16 masked fields. -/
theorem getIndices_ok (b : List ℕ) (h : b.length = 6) :
    getIndices b = .ok ((List.range 16).map
      (fun i => beUint64 ([0, 0] ++ b) >>> (i * 3) &&& 7)) := by
  unfold getIndices
  rw [if_pos h]

/-- Every field extracted by `getIndices` is masked with `&&& 7`. -/
theorem indices_elem_lt (b : List ℕ) :
    ∀ v ∈ (List.range 16).map
      (fun i => beUint64 ([0, 0] ++ b) >>> (i * 3) &&& 7), v < 8 := by
  intro v hv
  simp only [List.mem_map] at hv
  obtain ⟨i, _, rfl⟩ := hv
  have h7 : beUint64 ([0, 0] ++ b) >>> (i * 3) &&& 7 ≤ 7 := Nat.and_le_right
  omega

/-- A `getD` lookup with default 0 in a list of values `< 8` is `< 8`. -/
theorem getD_lt_eight (l : List ℕ) (h : ∀ v ∈ l, v < 8) (i : ℕ) :
    l.getD i 0 < 8 := by
  induction l generalizing i with
  | nil => simp [List.getD]
  | cons a t ih =>
    cases i with
    | zero => exact h a (List.mem_cons_self a t)
    | succ n =>
      simpa [List.getD] using ih (fun v hv => h v (List.mem_cons_of_mem a hv)) n

/-- Palette lookups below index 8 succeed. -/
theorem generatePalette_get?_isSome (c0 c1 : ℚ) (i : ℕ) (h : i < 8) :
    ∃ q, (generatePalette c0 c1).get? i = some q := by
  have hlen : i < (generatePalette c0 c1).length := by
    rw [generatePalette_length]
    omega
  exact ⟨_, List.get?_eq_get hlen⟩

/-- A pixel of `decompressBlock` is produced whenever its two palette
indices are in range. -/
theorem decompressPixel_ok (sq : ℚ → ℚ) (m : BlueMode) (c0 c1 d0 d1 : ℚ)
    (rIx gIx : List ℕ) (hr : ∀ v ∈ rIx, v < 8) (hg : ∀ v ∈ gIx, v < 8)
    (i : ℕ) :
    ∃ p, decompressPixel sq m (generatePalette c0 c1) (generatePalette d0 d1)
      rIx gIx i = .ok p := by
  obtain ⟨rq, hrq⟩ := generatePalette_get?_isSome c0 c1 _ (getD_lt_eight rIx hr i)
  obtain ⟨gq, hgq⟩ := generatePalette_get?_isSome d0 d1 _ (getD_lt_eight gIx hg i)
  refine ⟨⟨denormalize rq, denormalize gq,
    blueValue sq m rq gq (denormalize rq), 1⟩, ?_⟩
  unfold decompressPixel
  rw [hrq, hgq]

/-- `exceptList` succeeds on a list of successes, keeping its length. -/
theorem exceptList_ok {ε α : Type} (l : List (Except ε α))
    (h : ∀ e ∈ l, ∃ a, e = .ok a) :
    ∃ xs, exceptList l = .ok xs ∧ xs.length = l.length := by
  induction l with
  | nil => exact ⟨[], rfl, rfl⟩
  | cons e t ih =>
    obtain ⟨a, ha⟩ := h e (List.mem_cons_self e t)
    obtain ⟨xs, hxs, hlen⟩ := ih (fun x hx => h x (List.mem_cons_of_mem e hx))
    subst ha
    exact ⟨a :: xs, by simp [exceptList, hxs, Except.map], by simp [hlen]⟩

/-- `decompressBlock` succeeds on every 16-byte input, producing 16
pixels. -/
theorem decompressBlock_ok (sq : ℚ → ℚ) (bs : List ℕ) (m : BlueMode)
    (h : bs.length = 16) :
    ∃ pix, decompressBlock sq bs m = .ok pix ∧ pix.length = 16 := by
  have h6r : ((bs.drop 2).take 6).length = 6 := by simp [h]
  have h6g : (bs.drop 10).length = 6 := by simp [h]
  unfold decompressBlock
  rw [if_pos h, getIndices_ok _ h6r, getIndices_ok _ h6g]
  dsimp only
  obtain ⟨xs, hxs, hlen⟩ := exceptList_ok
    ((List.range 16).map (decompressPixel sq m
      (generatePalette (normalizeByte (bs.getD 0 0)) (normalizeByte (bs.getD 1 0)))
      (generatePalette (normalizeByte (bs.getD 8 0)) (normalizeByte (bs.getD 9 0)))
      ((List.range 16).map
        (fun i => beUint64 ([0, 0] ++ (bs.drop 2).take 6) >>> (i * 3) &&& 7))
      ((List.range 16).map
        (fun i => beUint64 ([0, 0] ++ bs.drop 10) >>> (i * 3) &&& 7))))
    (by
      intro e he
      simp only [List.mem_map] at he
      obtain ⟨i, _, rfl⟩ := he
      exact decompressPixel_ok sq m _ _ _ _ _ _
        (indices_elem_lt ((bs.drop 2).take 6)) (indices_elem_lt (bs.drop 10)) i)
  refine ⟨xs, hxs, ?_⟩
  rw [hlen]
  simp

/-- C6: `compressBlock` emits exactly 16 bytes for every block;
`decompressBlock` fails with the invalid-size error (the Go panic, the
spec's InvalidLength) on every input whose length is not 16, and succeeds
with a 16-pixel 4×4 block on every 16-byte input. -/
theorem c6_block_sizes :
    (∀ block : Blk, (compressBlock block).length = 16) ∧
    (∀ (sq : ℚ → ℚ) (bs : List ℕ) (m : BlueMode), bs.length ≠ 16 →
      decompressBlock sq bs m = .error .invalidBlockSize) ∧
    (∀ (sq : ℚ → ℚ) (bs : List ℕ) (m : BlueMode), bs.length = 16 →
      ∃ pix, decompressBlock sq bs m = .ok pix ∧ pix.length = 16) := by
  refine ⟨fun block => rfl, fun sq bs m h => ?_, decompressBlock_ok⟩
  unfold decompressBlock
  rw [if_neg h]

theorem c6_block_sizes_witness :
    (compressBlock (fun _ _ => ⟨0, 0, 0, 0⟩)).length = 16 ∧
    (([0] : List ℕ).length ≠ 16 ∧
      decompressBlock id [0] .zero = .error .invalidBlockSize) ∧
    ((List.replicate 16 (0 : ℕ)).length = 16 ∧
      ∃ pix, decompressBlock id (List.replicate 16 0) .zero = .ok pix ∧
        pix.length = 16) :=
  ⟨c6_block_sizes.1 _,
   ⟨by decide, c6_block_sizes.2.1 id [0] .zero (by decide)⟩,
   ⟨by decide, c6_block_sizes.2.2 id _ .zero (by decide)⟩⟩

/-- C10: every index produced by `getIndices` is in [0, 7] (each 3-bit
group is masked with `&&& 7`), so the palette lookups of
`decompressBlock` are always within the 8-entry palettes: no input, with
any blue mode, can make it fail with the palette-out-of-range error. -/
theorem c10_indices_in_range :
    (∀ b : List ℕ, b.length = 6 →
      ∃ ix, getIndices b = .ok ix ∧ ix.length = 16 ∧ ∀ v ∈ ix, v < 8) ∧
    (∀ (sq : ℚ → ℚ) (bs : List ℕ) (m : BlueMode),
      decompressBlock sq bs m ≠ .error .paletteOOB) := by
  constructor
  · intro b h
    exact ⟨_, getIndices_ok b h, by simp, indices_elem_lt b⟩
  · intro sq bs m
    by_cases h : bs.length = 16
    · obtain ⟨pix, hp, _⟩ := decompressBlock_ok sq bs m h
      rw [hp]
      simp
    · have herr : decompressBlock sq bs m = .error .invalidBlockSize := by
        unfold decompressBlock
        rw [if_neg h]
      rw [herr]
      simp

theorem c10_indices_in_range_witness :
    (([0, 0, 0, 0, 0, 0] : List ℕ).length = 6 ∧
      ∃ ix, getIndices [0, 0, 0, 0, 0, 0] = .ok ix ∧ ix.length = 16 ∧
        ∀ v ∈ ix, v < 8) ∧
    decompressBlock id [] .zero ≠ .error .paletteOOB :=
  ⟨⟨by decide, c10_indices_in_range.1 [0, 0, 0, 0, 0, 0] (by decide)⟩,
   c10_indices_in_range.2 id [] .zero⟩

/-- An 8×8 source image whose every pixel has red 100 and green 200,
with arbitrary blue and alpha channels. -/
def c4SrcImage (bl al : ℕ → ℕ → ℕ) : SrcImage :=
  ⟨8, 8, fun x y => ⟨100, 200, bl x y, al x y⟩⟩

/-- C4: compressing an 8×8 image whose every pixel has red 100 and green
200 (blue and alpha arbitrary) produces 4 identical 16-byte blocks with
reference bytes (100, 100) and (200, 200) and all 96 index bits zero, and
decompressing that compressed image yields red 100 and green 200 (the
exact pixel ⟨100, 200, 0, 1⟩, blue mode being the zero default) at every
one of the 64 coordinates. -/
theorem c4_solid_image_roundtrip (bl al : ℕ → ℕ → ℕ) (sq : ℚ → ℚ) :
    ∃ img : BC5Image,
      setFromRGBA (c4SrcImage bl al) = .ok img ∧
      img.data =
        [100, 100, 0, 0, 0, 0, 0, 0, 200, 200, 0, 0, 0, 0, 0, 0,
       100, 100, 0, 0, 0, 0, 0, 0, 200, 200, 0, 0, 0, 0, 0, 0,
       100, 100, 0, 0, 0, 0, 0, 0, 200, 200, 0, 0, 0, 0, 0, 0,
       100, 100, 0, 0, 0, 0, 0, 0, 200, 200, 0, 0, 0, 0, 0, 0] ∧
      ∀ x y : ℕ, x < 8 → y < 8 →
        decompressImageAt sq img x y = .ok ⟨100, 200, 0, 1⟩ := by
  have hmb : makeBlocks (c4SrcImage bl al) =
      [fun (x y : Fin 4) => (c4SrcImage bl al).px (0 * 4 + ↑x) (0 * 4 + ↑y),
       fun (x y : Fin 4) => (c4SrcImage bl al).px (1 * 4 + ↑x) (0 * 4 + ↑y),
       fun (x y : Fin 4) => (c4SrcImage bl al).px (0 * 4 + ↑x) (1 * 4 + ↑y),
       fun (x y : Fin 4) => (c4SrcImage bl al).px (1 * 4 + ↑x) (1 * 4 + ↑y)] := by
    unfold makeBlocks
    rw [show (c4SrcImage bl al).h = 8 from rfl,
      show (c4SrcImage bl al).w = 8 from rfl]
    rfl
  have hblk : ∀ bcol brow : ℕ,
      compressBlock (fun (x y : Fin 4) =>
        (c4SrcImage bl al).px (bcol * 4 + ↑x) (brow * 4 + ↑y))
        = [100, 100, 0, 0, 0, 0, 0, 0, 200, 200, 0, 0, 0, 0, 0, 0] :=
    fun bcol brow =>
      (compressBlock_congr _ (fun _ _ => ⟨100, 200, 0, 0⟩)
        (fun x y => rfl) (fun x y => rfl)).trans compress_const100
  have hdata :
      (makeBlocks (c4SrcImage bl al)).flatMap compressBlock =
      [100, 100, 0, 0, 0, 0, 0, 0, 200, 200, 0, 0, 0, 0, 0, 0,
       100, 100, 0, 0, 0, 0, 0, 0, 200, 200, 0, 0, 0, 0, 0, 0,
       100, 100, 0, 0, 0, 0, 0, 0, 200, 200, 0, 0, 0, 0, 0, 0,
       100, 100, 0, 0, 0, 0, 0, 0, 200, 200, 0, 0, 0, 0, 0, 0] := by
    rw [hmb]
    simp only [List.flatMap_cons, List.flatMap_nil, hblk, List.append_nil]
    rfl
  refine ⟨⟨[100, 100, 0, 0, 0, 0, 0, 0, 200, 200, 0, 0, 0, 0, 0, 0,
       100, 100, 0, 0, 0, 0, 0, 0, 200, 200, 0, 0, 0, 0, 0, 0,
       100, 100, 0, 0, 0, 0, 0, 0, 200, 200, 0, 0, 0, 0, 0, 0,
       100, 100, 0, 0, 0, 0, 0, 0, 200, 200, 0, 0, 0, 0, 0, 0], 8, 8, .zero⟩, ?_, rfl, ?_⟩
  · simp only [setFromRGBA]
    rw [if_neg (fun hc => hc rfl),
      if_neg (fun hc => hc (by
        rw [show (c4SrcImage bl al).w = 8 from rfl])),
      hdata]
    rw [show (c4SrcImage bl al).w = 8 from rfl,
      show (c4SrcImage bl al).h = 8 from rfl]
  · intro x y hx hy
    have hbix : y / 4 * 8 / 4 + x / 4 < 4 := by omega
    have hslice : ∀ k : ℕ, k < 4 →
        (([100, 100, 0, 0, 0, 0, 0, 0, 200, 200, 0, 0, 0, 0, 0, 0,
       100, 100, 0, 0, 0, 0, 0, 0, 200, 200, 0, 0, 0, 0, 0, 0,
       100, 100, 0, 0, 0, 0, 0, 0, 200, 200, 0, 0, 0, 0, 0, 0,
       100, 100, 0, 0, 0, 0, 0, 0, 200, 200, 0, 0, 0, 0, 0, 0] : List ℕ).drop (k * 16)).take 16 = [100, 100, 0, 0, 0, 0, 0, 0, 200, 200, 0, 0, 0, 0, 0, 0] := by
      intro k hk
      interval_cases k <;> rfl
    simp only [decompressImageAt]
    rw [if_pos (show y / 4 * 8 / 4 + x / 4 <
        ([100, 100, 0, 0, 0, 0, 0, 0, 200, 200, 0, 0, 0, 0, 0, 0,
       100, 100, 0, 0, 0, 0, 0, 0, 200, 200, 0, 0, 0, 0, 0, 0,
       100, 100, 0, 0, 0, 0, 0, 0, 200, 200, 0, 0, 0, 0, 0, 0,
       100, 100, 0, 0, 0, 0, 0, 0, 200, 200, 0, 0, 0, 0, 0, 0] : List ℕ).length / 16 by
      have h64 : ([100, 100, 0, 0, 0, 0, 0, 0, 200, 200, 0, 0, 0, 0, 0, 0,
       100, 100, 0, 0, 0, 0, 0, 0, 200, 200, 0, 0, 0, 0, 0, 0,
       100, 100, 0, 0, 0, 0, 0, 0, 200, 200, 0, 0, 0, 0, 0, 0,
       100, 100, 0, 0, 0, 0, 0, 0, 200, 200, 0, 0, 0, 0, 0, 0] : List ℕ).length = 64 := rfl
      rw [h64]
      omega)]
    rw [hslice _ hbix, decompress_solid sq 100 200]
    simp only [Except.map]
    rw [blockAt, getD_replicate _ _ (by omega)]

theorem c4_solid_image_roundtrip_witness :
    ∃ img : BC5Image,
      setFromRGBA (c4SrcImage (fun _ _ => 0) (fun _ _ => 0)) = .ok img ∧
      img.data =
        [100, 100, 0, 0, 0, 0, 0, 0, 200, 200, 0, 0, 0, 0, 0, 0,
       100, 100, 0, 0, 0, 0, 0, 0, 200, 200, 0, 0, 0, 0, 0, 0,
       100, 100, 0, 0, 0, 0, 0, 0, 200, 200, 0, 0, 0, 0, 0, 0,
       100, 100, 0, 0, 0, 0, 0, 0, 200, 200, 0, 0, 0, 0, 0, 0] ∧
      ((0 : ℕ) < 8 ∧
        decompressImageAt id img 0 0 = .ok ⟨100, 200, 0, 1⟩) := by
  obtain ⟨img, h1, h2, h3⟩ :=
    c4_solid_image_roundtrip (fun _ _ => 0) (fun _ _ => 0) id
  exact ⟨img, h1, h2, by decide, h3 0 0 (by decide) (by decide)⟩
